import Mathlib

/-!
Shallow embedding of the pending-approval workflow of the
union-military-lowyers-bot repository: the in-memory registry
(`storage.py`), the intake filter (`handlers/channel_handler.py`), the
approve/reject callbacks (`handlers/callback_handler.py`), the rename /
upload message handler (`handlers/message_handler.py`) and the GitHub
upload path construction (`services/github_service.py`).

Python strings are modelled as Lean `String`s manipulated at the
character-list level; Python dicts are modelled as insertion-ordered
association lists; timestamps are integers counting seconds, so the
10-minute timeout of `message_handler.py` is the bound 600.
-/

namespace UnionBot

/-! Python string primitives, at the character level -/

/-- ASCII whitespace, as stripped by Python `str.strip` (the common cases). -/
def isPySpace (c : Char) : Bool :=
  c == ' ' || c == '\t' || c == '\n' || c == '\r' || c == '\x0b' || c == '\x0c'

/-- Python `s.strip()`: drop whitespace from both ends. -/
def pyStrip (s : String) : String :=
  String.mk (((s.toList.dropWhile isPySpace).reverse.dropWhile isPySpace).reverse)

/-- Python `c in s` for a single character `c`. -/
def pyIn (c : Char) (s : String) : Bool :=
  s.toList.contains c

/-- Python `s[:n]`. -/
def pyTake (s : String) (n : Nat) : String :=
  String.mk (s.toList.take n)

/-- The characters after the last `'.'` of a list (the whole list when no
`'.'` occurs): Python `"x".split('.')[-1]` at the character level. -/
def afterLastDot (l : List Char) : List Char :=
  (l.reverse.takeWhile (fun c => c != '.')).reverse

/-- Python `original_filename.split(".")[-1].lower()` from
`message_handler.py` line 117. -/
def lowerAfterLastDot (s : String) : String :=
  String.mk ((afterLastDot s.toList).map Char.toLower)

/-! `config.py`: AppConfig -/

/-- Mirror of `AppConfig` from `config.py`: size ceilings (in MB) and the document
MIME allow-list. -/
structure AppConfig where
  MAX_FILE_SIZE_MB : Nat
  MAX_IMAGE_SIZE_MB : Nat
  ALLOWED_DOCUMENTS : List String
deriving DecidableEq, Repr

/-- The concrete configuration values of `config.py`. -/
def app_config : AppConfig where
  MAX_FILE_SIZE_MB := 50
  MAX_IMAGE_SIZE_MB := 10
  ALLOWED_DOCUMENTS :=
    [ "application/pdf"
    , "application/msword"
    , "application/vnd.openxmlformats-officedocument.wordprocessingml.document"
    , "application/vnd.openxmlformats-officedocument.spreadsheetml.sheet" ]

/-! `schemas/media_schemas.py` -/

/-- Mirror of the `MediaType` enum. -/
inductive MediaType where
  | PHOTO
  | DOCUMENT
deriving DecidableEq, Repr

/-- Mirror of the `MediaStatus` enum. -/
inductive MediaStatus where
  | PENDING
  | APPROVED
  | REJECTED
  | UPLOADED
  | FAILED
deriving DecidableEq, Repr

/-- Mirror of the `MediaItem` model from `schemas/media_schemas.py` (the fields the
channel handler populates). -/
structure MediaItem where
  telegram_file_id : String
  media_type : MediaType
  filename : String
  mime_type : String
  size_bytes : Nat
  caption : Option String
  telegram_post_id : Nat
  status : MediaStatus
deriving DecidableEq, Repr

/-! `storage.py`: PendingFile, the two caches -/

/-- Mirror of the `PendingFile` dataclass from `storage.py`.  `media_type` is a plain
string (`"PHOTO"` / `"DOCUMENT"`) exactly as in the dataclass; timestamps
are seconds. -/
structure PendingFile where
  file_id : String
  media_type : String
  original_filename : String
  mime_type : String
  size_bytes : Nat
  caption : Option String
  telegram_post_id : Option Nat
  approved_at : Option Int
  waiting_for_name : Bool
deriving DecidableEq, Repr

/-- What the untyped Python dict `pending_callbacks` actually holds at
runtime.  `storage.py` declares `Dict[str, PendingFile]`, but
`channel_handler.ask_admin_for_approval` stores the bare
`telegram_file_id` string, so a value is either that string or a real
`PendingFile`. -/
inductive StoredVal where
  | fileId (s : String)
  | file (p : PendingFile)
deriving DecidableEq, Repr

/-- Shape of an `admin_context[admin_id]` entry from `callback_handler.py`:
`{"last_approved_short_id": ..., "waiting_since": ...}`.  Fields are
optional because the handlers read them with `dict.get`. -/
structure AdminContext where
  last_approved_short_id : Option String
  waiting_since : Option Int
deriving DecidableEq, Repr

/-- Insertion-ordered association list standing for a Python dict. -/
def alookup {α β : Type} [BEq α] : List (α × β) → α → Option β
  | [], _ => none
  | (k, v) :: rest, key => if k == key then some v else alookup rest key

/-- Python `d[k] = v`: replace in place when the key exists, append
otherwise. -/
def aset {α β : Type} [BEq α] : List (α × β) → α → β → List (α × β)
  | [], k, v => [(k, v)]
  | (k', v') :: rest, k, v =>
      if k' == k then (k, v) :: rest else (k', v') :: aset rest k v

/-- Python `del d[k]` (keys are unique in a dict, so removing the first
match suffices); a no-op when the key is absent. -/
def aerase {α β : Type} [BEq α] : List (α × β) → α → List (α × β)
  | [], _ => []
  | (k', v') :: rest, k =>
      if k' == k then rest else (k', v') :: aerase rest k

/-- The `pending_callbacks` dict: short_id -> stored value. -/
abbrev Store := List (String × StoredVal)

/-- The `admin_context` dict: admin_id -> dialogue context. -/
abbrev Sessions := List (Nat × AdminContext)

/-- The whole mutable state of `storage.py`. -/
structure BotState where
  pending_callbacks : Store
  admin_context : Sessions
deriving DecidableEq, Repr

/-! `handlers/channel_handler.py`: intake filter -/

/-- The fields of an aiogram `Document` the intake filter consults. -/
structure TgDocument where
  file_id : String
  file_name : String
  mime_type : String
  file_size : Nat
deriving DecidableEq, Repr

/-- The fields of an aiogram `PhotoSize` the intake filter consults. -/
structure TgPhotoSize where
  file_id : String
  file_size : Nat
deriving DecidableEq, Repr

/-- Intake of `handle_document` (channel_handler.py lines 32-62): admit or silently
drop a posted document.  `none` means the early `return` paths: nothing
is sent to the reviewer.  On admit, the constructed `MediaItem` is handed
to `ask_admin_for_approval`. -/
def handle_document (cfg : AppConfig) (msg_caption : Option String)
    (msg_id : Nat) (d : TgDocument) : Option MediaItem :=
  if (cfg.ALLOWED_DOCUMENTS.contains d.mime_type) = false then none
  else if cfg.MAX_FILE_SIZE_MB * 1024 * 1024 < d.file_size then none
  else some
    { telegram_file_id := d.file_id
    , media_type := .DOCUMENT
    , filename := d.file_name
    , mime_type := d.mime_type
    , size_bytes := d.file_size
    , caption := msg_caption
    , telegram_post_id := msg_id
    , status := .PENDING }

/-- Intake of `handle_photo` (channel_handler.py lines 65-91): `message.photo[-1]`
selects the last (highest-resolution) variant; only the size is checked,
never a MIME type.  An empty variant list raises inside the handler's
`try` and is swallowed, i.e. dropped. -/
def handle_photo (cfg : AppConfig) (msg_caption : Option String)
    (msg_id : Nat) (photos : List TgPhotoSize) : Option MediaItem :=
  match photos.getLast? with
  | none => none
  | some photo =>
      if cfg.MAX_IMAGE_SIZE_MB * 1024 * 1024 < photo.file_size then none
      else some
        { telegram_file_id := photo.file_id
        , media_type := .PHOTO
        , filename := "photo_" ++ toString msg_id ++ ".jpg"
        , mime_type := "image/jpeg"
        , size_bytes := photo.file_size
        , caption := msg_caption
        , telegram_post_id := msg_id
        , status := .PENDING }

/-- The storage action of `ask_admin_for_approval` (channel_handler.py
lines 97-99): `short_id = str(uuid.uuid4())[:8]` followed by
`pending_callbacks[short_id] = media_item.telegram_file_id`.  The random
uuid string is a parameter; note that what is stored is the bare
`telegram_file_id`, and that no check against an existing entry under
the same truncated id is made. -/
def ask_admin_insert (reg : Store) (uuid_str : String) (item : MediaItem) :
    String × Store :=
  let short_id := pyTake uuid_str 8
  (short_id, aset reg short_id (.fileId item.telegram_file_id))

/-! `handlers/callback_handler.py`: approve / reject callbacks -/

/-- Observable outcome of a callback handler run.  `errorCaught` is the
outer `except` branch answering a generic error message; `promptForName`
is the successful approve path (the name-entry prompt is sent to the
acting user's chat). -/
inductive CbResult where
  | answerNotFound
  | errorCaught
  | promptForName (admin_id : Nat)
  | rejectedOk
deriving DecidableEq, Repr

/-- Embedding of `handle_approve` (callback_handler.py lines 13-95).  The acting user
is `from_user`; note that no comparison with the configured admin id is
made anywhere in the handler.  If the registry holds a bare file-id
string (what `ask_admin_for_approval` actually stores), the attribute
access `pending_file.original_filename` raises and the outer `except`
answers an error with no state change.  On a real `PendingFile`, the
handler stamps `approved_at`, sets `waiting_for_name` and replaces the
acting user's `admin_context` entry, with no check that the file was not
already waiting for a name. -/
def handle_approve (st : BotState) (short_id : String) (from_user : Nat)
    (now : Int) : BotState × CbResult :=
  match alookup st.pending_callbacks short_id with
  | none => (st, .answerNotFound)
  | some (.fileId _) => (st, .errorCaught)
  | some (.file pf) =>
      let pf2 := { pf with approved_at := some now, waiting_for_name := true }
      ( { pending_callbacks := aset st.pending_callbacks short_id (.file pf2)
        , admin_context :=
            aset st.admin_context from_user
              { last_approved_short_id := some short_id
              , waiting_since := some now } }
      , .promptForName from_user )

/-- Embedding of `handle_reject` (callback_handler.py lines 98-151): delete the
registry entry, and clear the acting user's context only when it points
at this very short_id.  Again no authorization check; a bare file-id
value raises at `pending_file.media_type` and is caught with no state
change. -/
def handle_reject (st : BotState) (short_id : String) (from_user : Nat) :
    BotState × CbResult :=
  match alookup st.pending_callbacks short_id with
  | none => (st, .answerNotFound)
  | some (.fileId _) => (st, .errorCaught)
  | some (.file _) =>
      let reg2 := aerase st.pending_callbacks short_id
      let ctx2 :=
        match alookup st.admin_context from_user with
        | none => st.admin_context
        | some c =>
            if c.last_approved_short_id == some short_id then
              aerase st.admin_context from_user
            else st.admin_context
      ({ pending_callbacks := reg2, admin_context := ctx2 }, .rejectedOk)

/-- The `admin_only` decorator from `handlers/admin_handler.py` lines 18-29:
the action is allowed only when the acting user id equals the configured
admin id.  This guard is applied to the handlers of `admin_handler.py`
but not to those of `callback_handler.py`. -/
def admin_only_allows (config_admin_id user_id : Nat) : Bool :=
  user_id == config_admin_id

/-! `handlers/message_handler.py`: name submission -/

/-- The forbidden filename characters of message_handler.py line 87. -/
def forbidden_chars : List Char :=
  ['/', '\\', ':', '*', '?', '"', '<', '>', '|']

/-- Timeout test of message_handler.py line 48:
`waiting_since and datetime.now() - waiting_since > timedelta(minutes=10)`,
in seconds. -/
def timedOut (waiting_since : Option Int) (now : Int) : Bool :=
  match waiting_since with
  | none => false
  | some s => decide (600 < now - s)

/-- Final filename computation of message_handler.py lines 116-120: a
name without a dot gets the lower-cased extension of the original
filename appended; a name containing a dot is used verbatim. -/
def final_filename (new_filename : String) (original : String) : String :=
  if pyIn '.' new_filename = false then
    new_filename ++ "." ++ lowerAfterLastDot original
  else new_filename

/-- Observable outcome of one run of `handle_admin_message`. -/
inductive MsgResult where
  | ignoredNoContext
  | ignoredNoShortId
  | timeoutExpired
  | fileNotFound
  | errorCaught
  | ignoredNotWaiting
  | nameTooShort
  | nameTooLong
  | nameForbiddenChars
  | uploadedOk (final : String) (url : String)
  | uploadFailed (truncated_error : String)
deriving DecidableEq, Repr

/-- Embedding of `handle_admin_message` (message_handler.py lines 23-190), with the
two long-latency collaborators as oracles: `download` is the Telegram
`get_file`/`download_file` pair, `upload` is
`github_service.upload_file_to_github` applied to the final filename.
Both failure kinds land in the same `except upload_error` branch, which
truncates the diagnostic to 200 characters and clears only the admin
context.  A bare file-id registry value (the C1 bug) raises at
`pending_file.waiting_for_name` and is caught by the outer `except` with
no state change. -/
def handle_admin_message (st : BotState) (admin_id : Nat) (text : String)
    (now : Int) (download : Except String Unit)
    (upload : String → Except String String) : BotState × MsgResult :=
  match alookup st.admin_context admin_id with
  | none => (st, .ignoredNoContext)
  | some ctx =>
    match ctx.last_approved_short_id with
    | none => (st, .ignoredNoShortId)
    | some short_id =>
      if timedOut ctx.waiting_since now then
        ({ st with admin_context := aerase st.admin_context admin_id },
         .timeoutExpired)
      else
        match alookup st.pending_callbacks short_id with
        | none =>
            ({ st with admin_context := aerase st.admin_context admin_id },
             .fileNotFound)
        | some (.fileId _) => (st, .errorCaught)
        | some (.file pf) =>
          if pf.waiting_for_name = false then (st, .ignoredNotWaiting)
          else
            let new_filename := pyStrip text
            if new_filename.length < 2 then (st, .nameTooShort)
            else if 255 < new_filename.length then (st, .nameTooLong)
            else if forbidden_chars.any (fun c => pyIn c new_filename) then
              (st, .nameForbiddenChars)
            else
              match download with
              | .error e =>
                  ({ st with admin_context := aerase st.admin_context admin_id },
                   .uploadFailed (pyTake e 200))
              | .ok _ =>
                let fin := final_filename new_filename pf.original_filename
                match upload fin with
                | .ok url =>
                    ({ pending_callbacks := aerase st.pending_callbacks short_id
                     , admin_context := aerase st.admin_context admin_id },
                     .uploadedOk fin url)
                | .error e =>
                    ({ st with admin_context := aerase st.admin_context admin_id },
                     .uploadFailed (pyTake e 200))

/-- The acceptance predicate the validation block of message_handler.py
implements: trimmed length in [2, 255] and no forbidden character. -/
def nameValid (t : String) : Bool :=
  2 ≤ t.length && t.length ≤ 255 && forbidden_chars.all (fun c => !(pyIn c t))

/-! `services/github_service.py`: upload path construction -/

/-- One lower-case hex digit for a value below 16. -/
def hexChar (n : Nat) : Char :=
  if n < 10 then Char.ofNat (48 + n) else Char.ofNat (87 + n)

/-- Model of `uuid.uuid4().hex`: the 16 random bytes rendered as 32 lower-case
hex digits. -/
def uuidHex (bytes : List Nat) : String :=
  String.mk (bytes.flatMap (fun b => [hexChar (b / 16 % 16), hexChar (b % 16)]))

/-- Model of `datetime.utcnow().strftime("%Y-%m-%d")`: zero-padded date. -/
def pad2 (n : Nat) : String :=
  if n < 10 then "0" ++ toString n else toString n

/-- Zero-pad a year to four digits. -/
def pad4 (n : Nat) : String :=
  if n < 10 then "000" ++ toString n
  else if n < 100 then "00" ++ toString n
  else if n < 1000 then "0" ++ toString n
  else toString n

/-- UTC date path `YYYY-MM-DD` of github_service.py line 61. -/
def strftime_date (y m d : Nat) : String :=
  pad4 y ++ "-" ++ pad2 m ++ "-" ++ pad2 d

/-- Embedding of `filename.split('.')[-1] if '.' in filename else 'bin'`
(github_service.py line 64); note: not lower-cased here. -/
def file_ext_for (filename : String) : String :=
  if pyIn '.' filename then String.mk (afterLastDot filename.toList) else "bin"

/-- The three artefacts `upload_file_to_github` produces. -/
structure GithubUpload where
  github_path : String
  public_url : String
  commit_message : String
deriving DecidableEq, Repr

/-- Path, URL and commit-message construction of
`upload_file_to_github` (github_service.py lines 60-119).  The uuid
bytes and the date are parameters standing for `uuid.uuid4()` and
`datetime.utcnow()`. -/
def upload_file_to_github (media_folder owner repo_name : String)
    (date_path : String) (uuid_bytes : List Nat)
    (filename : String) (media_type_value : String) : GithubUpload :=
  let safe_filename := uuidHex uuid_bytes ++ "." ++ file_ext_for filename
  let github_path := media_folder ++ "/" ++ date_path ++ "/" ++ safe_filename
  { github_path := github_path
  , public_url :=
      "https://raw.githubusercontent.com/" ++ owner ++ "/" ++ repo_name
        ++ "/main/" ++ github_path
  , commit_message :=
      "📤 Upload: " ++ filename ++ " (" ++ media_type_value ++ ")" }

/-- A character is a lower-case hexadecimal digit. -/
def isHexLowerDigit (c : Char) : Bool :=
  (48 ≤ c.toNat && c.toNat ≤ 57) || (97 ≤ c.toNat && c.toNat ≤ 102)

/-! Dictionary lemmas -/

theorem alookup_aset_self {α β : Type} [BEq α] [LawfulBEq α]
    (l : List (α × β)) (k : α) (v : β) : alookup (aset l k v) k = some v := by
  induction l with
  | nil => simp [aset, alookup]
  | cons hd tl ih =>
    obtain ⟨k', v'⟩ := hd
    by_cases h : (k' == k) = true
    · simp [aset, h, alookup]
    · simp [aset, h, alookup, ih]

theorem alookup_aerase_ne {α β : Type} [BEq α] [LawfulBEq α]
    (l : List (α × β)) (k a : α) (h : a ≠ k) :
    alookup (aerase l k) a = alookup l a := by
  induction l with
  | nil => simp [aerase]
  | cons hd tl ih =>
    obtain ⟨k', v'⟩ := hd
    by_cases h1 : (k' == k) = true
    · have hk : k' = k := by simpa using h1
      have : (k' == a) = false := by
        simp [hk]
        exact fun hh => h hh.symm
      simp [aerase, h1, alookup, this]
    · simp [aerase, h1, alookup, ih]

theorem alookup_eq_none_of_not_mem_keys {α β : Type} [BEq α] [LawfulBEq α]
    (l : List (α × β)) (k : α) (h : k ∉ l.map Prod.fst) : alookup l k = none := by
  induction l with
  | nil => rfl
  | cons hd tl ih =>
    obtain ⟨k', v'⟩ := hd
    simp only [List.map_cons, List.mem_cons, not_or] at h
    have : (k' == k) = false := by
      simp
      exact fun hh => h.1 hh.symm
    simp [alookup, this, ih h.2]

theorem alookup_aerase_self {α β : Type} [BEq α] [LawfulBEq α]
    (l : List (α × β)) (k : α) (h : (l.map Prod.fst).Nodup) :
    alookup (aerase l k) k = none := by
  induction l with
  | nil => rfl
  | cons hd tl ih =>
    obtain ⟨k', v'⟩ := hd
    simp only [List.map_cons, List.nodup_cons] at h
    by_cases h1 : (k' == k) = true
    · have hk : k' = k := by simpa using h1
      simp only [aerase, h1, if_pos]
      exact alookup_eq_none_of_not_mem_keys tl k (hk ▸ h.1)
    · simp [aerase, h1, alookup, ih h.2]

/-! String-helper lemmas -/

theorem takeWhile_append_all {α : Type} {p : α → Bool} (l1 l2 : List α)
    (h : ∀ x ∈ l1, p x = true) :
    (l1 ++ l2).takeWhile p = l1 ++ l2.takeWhile p := by
  induction l1 with
  | nil => simp
  | cons hd tl ih =>
    simp only [List.cons_append, List.takeWhile_cons, h hd (by simp)]
    rw [ih fun x hx => h x (by simp [hx])]
    simp

/-- The suffix after the explicitly last dot is returned verbatim. -/
theorem afterLastDot_append (l1 l2 : List Char) (h : '.' ∉ l2) :
    afterLastDot (l1 ++ '.' :: l2) = l2 := by
  unfold afterLastDot
  have hrev : (l1 ++ '.' :: l2).reverse = l2.reverse ++ '.' :: l1.reverse := by
    simp
  rw [hrev, takeWhile_append_all l2.reverse ('.' :: l1.reverse)
    (fun x hx => by
      simp at hx
      simp
      exact fun he => h (he ▸ hx))]
  simp [List.takeWhile_cons]

theorem uuidHex_length (bytes : List Nat) :
    (uuidHex bytes).length = 2 * bytes.length := by
  induction bytes with
  | nil => rfl
  | cons b bs ih =>
    simp only [uuidHex, List.flatMap_cons, String.length] at *
    simp only [List.length_append, List.length_cons, List.length_nil] at *
    omega

theorem hexChar_isHex : ∀ n, n < 16 → isHexLowerDigit (hexChar n) = true := by
  decide

theorem uuidHex_all_hex (bytes : List Nat) :
    ∀ c ∈ (uuidHex bytes).toList, isHexLowerDigit c = true := by
  intro c hc
  have hc2 : c ∈ bytes.flatMap
      (fun b => [hexChar (b / 16 % 16), hexChar (b % 16)]) := hc
  rw [List.mem_flatMap] at hc2
  obtain ⟨b, _, hval⟩ := hc2
  simp at hval
  rcases hval with h | h
  · exact h ▸ hexChar_isHex _ (Nat.mod_lt _ (by norm_num))
  · exact h ▸ hexChar_isHex _ (Nat.mod_lt _ (by norm_num))

theorem nameValid_iff (t : String) :
    nameValid t = true ↔
      (2 ≤ t.length ∧ t.length ≤ 255 ∧
        (forbidden_chars.any fun c => pyIn c t) = false) := by
  unfold nameValid
  rw [Bool.and_eq_true, Bool.and_eq_true, List.all_eq_true, List.any_eq_false]
  constructor
  · rintro ⟨⟨h1, h2⟩, h3⟩
    exact ⟨by simpa using h1, by simpa using h2,
      fun c hc => by simpa using h3 c hc⟩
  · rintro ⟨h1, h2, h3⟩
    exact ⟨⟨by simpa using h1, by simpa using h2⟩,
      fun c hc => by simpa using h3 c hc⟩

/-- Whether a stored registry value is an actual `PendingFile`. -/
def StoredVal.isPendingFile : StoredVal → Bool
  | .fileId _ => false
  | .file _ => true

/-! Concrete scenario states -/

/-- A 2 MB admitted PDF document, as the intake filter normalizes it. -/
def c1Item : MediaItem where
  telegram_file_id := "FID123"
  media_type := .DOCUMENT
  filename := "doc.pdf"
  mime_type := "application/pdf"
  size_bytes := 2097152
  caption := none
  telegram_post_id := 77
  status := .PENDING

/-- Insert of `c1Item` into an empty registry with a fixed uuid draw. -/
def c1Insert : String × Store :=
  ask_admin_insert [] "12345678-9abc-def0-1234-56789abcdef0" c1Item

/-- A second insert whose uuid draw shares the first eight characters. -/
def c1Insert2 : String × Store :=
  ask_admin_insert c1Insert.2 "12345678-ffff-4fff-8fff-ffffffffffff"
    { c1Item with telegram_file_id := "FID456", telegram_post_id := 78 }

/-- A candidate already approved and awaiting its name. -/
def c2File : PendingFile where
  file_id := "FID1"
  media_type := "DOCUMENT"
  original_filename := "doc.pdf"
  mime_type := "application/pdf"
  size_bytes := 100
  caption := none
  telegram_post_id := some 5
  approved_at := some 50
  waiting_for_name := true

/-- State in which handle `h1` is already AwaitingRename and reviewer 1
holds a session pointing at it. -/
def c2State : BotState where
  pending_callbacks := [("h1", .file c2File)]
  admin_context :=
    [(1, { last_approved_short_id := some "h1", waiting_since := some 50 })]

/-- A candidate still awaiting review (not yet approved). -/
def c3File : PendingFile where
  file_id := "FID1"
  media_type := "DOCUMENT"
  original_filename := "doc.pdf"
  mime_type := "application/pdf"
  size_bytes := 100
  caption := none
  telegram_post_id := some 5
  approved_at := none
  waiting_for_name := false

/-- State with one AwaitingReview handle and no open sessions. -/
def c3State : BotState where
  pending_callbacks := [("h1", .file c3File)]
  admin_context := []

/-! Claims -/

/-- C1: the spec says `insert(candidate)` allocates a fresh handle
that collides with no live handle and stores the `FileCandidate` itself
as AwaitingReview, with `get(handle)` returning that candidate.  The
code (`ask_admin_for_approval`, channel_handler.py lines 97-99) instead
stores the bare `telegram_file_id` string under the truncated-uuid
handle — contradicting the declared type `Dict[str, PendingFile]` of
`storage.py` — so `get` returns a string, the subsequent approve crashes
into its generic `except` branch with no state change, and a second
insert whose uuid draw shares the first eight characters silently
overwrites the live entry. -/
theorem claim1_insert_stores_file_id_string :
    c1Insert.1 = "12345678"
    ∧ alookup c1Insert.2 c1Insert.1 = some (.fileId "FID123")
    ∧ (alookup c1Insert.2 c1Insert.1).map StoredVal.isPendingFile = some false
    ∧ handle_approve { pending_callbacks := c1Insert.2, admin_context := [] }
        c1Insert.1 1 0
        = ({ pending_callbacks := c1Insert.2, admin_context := [] }, .errorCaught)
    ∧ c1Insert2.1 = c1Insert.1
    ∧ alookup c1Insert2.2 c1Insert.1 = some (.fileId "FID456") := by
  decide

/-- C2 counterexample: approving handle `h1`, which is already
AwaitingRename (`waiting_for_name = true`), is *processed again*: the
handler answers with the name prompt, re-stamps `approved_at` from 50 to
1000 and replaces the reviewer session — it is not rejected as a
duplicate/invalid action as the claim states. -/
theorem claim2_counterexample :
    handle_approve c2State "h1" 1 1000
      = ({ pending_callbacks :=
             [("h1", .file { c2File with approved_at := some 1000 })]
         , admin_context :=
             [(1, { last_approved_short_id := some "h1"
                  , waiting_since := some 1000 })] }
        , .promptForName 1) := by
  decide

/-- C2 amended: an approve on any *present* handle — whether or not
it is already awaiting a name — stamps `approved_at := now`, sets the
waiting flag and opens/replaces the acting reviewer's session, answering
with the name prompt; only an approve on an absent handle is rejected
(with a "file not found" answer) and leaves the state unchanged.  The
transition to AwaitingRename is therefore not once-only. -/
theorem claim2_amended_approve (st : BotState) (short_id : String)
    (actor : Nat) (now : Int) (pf : PendingFile)
    (hpf : alookup st.pending_callbacks short_id = some (.file pf)) :
    (handle_approve st short_id actor now).2 = .promptForName actor
    ∧ alookup (handle_approve st short_id actor now).1.pending_callbacks short_id
        = some (.file { pf with approved_at := some now, waiting_for_name := true })
    ∧ alookup (handle_approve st short_id actor now).1.admin_context actor
        = some { last_approved_short_id := some short_id, waiting_since := some now }
    ∧ (∀ st2 : BotState, alookup st2.pending_callbacks short_id = none →
        handle_approve st2 short_id actor now = (st2, .answerNotFound)) := by
  refine ⟨?_, ?_, ?_, ?_⟩
  · simp [handle_approve, hpf]
  · simp [handle_approve, hpf, alookup_aset_self]
  · simp [handle_approve, hpf, alookup_aset_self]
  · intro st2 h2
    simp [handle_approve, h2]

/-- Witness for the amended C2 at the concrete state `c2State`. -/
theorem claim2_amended_approve_witness :
    (handle_approve c2State "h1" 1 5).2 = .promptForName 1 :=
  (claim2_amended_approve c2State "h1" 1 5 c2File (by decide)).1

/-- C3: the spec requires actions from any identity other than the
designated reviewer to be rejected before any state lookup.  The
`admin_only` guard of admin_handler.py would indeed deny user 999 when
the configured admin is 1, but `callback_handler.handle_approve` and
`handle_reject` never consult the admin id: an approve from user 999
performs the registry lookup, mutates the candidate and opens a session
*for user 999*, and a reject from user 999 deletes the registry
entry. -/
theorem claim3_no_authorization_check :
    admin_only_allows 1 999 = false
    ∧ (handle_approve c3State "h1" 999 42).2 = .promptForName 999
    ∧ (handle_approve c3State "h1" 999 42).1.admin_context
        = [(999, { last_approved_short_id := some "h1", waiting_since := some 42 })]
    ∧ alookup (handle_approve c3State "h1" 999 42).1.pending_callbacks "h1"
        = some (.file { c3File with approved_at := some 42, waiting_for_name := true })
    ∧ (handle_reject c3State "h1" 999).2 = .rejectedOk
    ∧ (handle_reject c3State "h1" 999).1.pending_callbacks = [] := by
  decide

/-- Reduction of `handle_admin_message` once the session, timeout and
registry preconditions are met: only the validation block and the two
collaborator calls remain. -/
theorem ham_reaches_validation (st : BotState) (admin_id : Nat)
    (text : String) (now : Int) (download : Except String Unit)
    (upload : String → Except String String) (ctx : AdminContext)
    (short_id : String) (pf : PendingFile)
    (hctx : alookup st.admin_context admin_id = some ctx)
    (hsid : ctx.last_approved_short_id = some short_id)
    (htime : timedOut ctx.waiting_since now = false)
    (hpf : alookup st.pending_callbacks short_id = some (.file pf))
    (hwait : pf.waiting_for_name = true) :
    handle_admin_message st admin_id text now download upload =
      (if (pyStrip text).length < 2 then (st, .nameTooShort)
       else if 255 < (pyStrip text).length then (st, .nameTooLong)
       else if forbidden_chars.any (fun c => pyIn c (pyStrip text)) then
         (st, .nameForbiddenChars)
       else
         match download with
         | .error e =>
             ({ st with admin_context := aerase st.admin_context admin_id },
              .uploadFailed (pyTake e 200))
         | .ok _ =>
           match upload (final_filename (pyStrip text) pf.original_filename) with
           | .ok url =>
               ({ pending_callbacks := aerase st.pending_callbacks short_id
                , admin_context := aerase st.admin_context admin_id },
                .uploadedOk (final_filename (pyStrip text) pf.original_filename) url)
           | .error e =>
               ({ st with admin_context := aerase st.admin_context admin_id },
                .uploadFailed (pyTake e 200))) := by
  simp [handle_admin_message, hctx, hsid, htime, hpf, hwait]

/-- C4: with an active, un-timed-out session pointing at a present
candidate that awaits a name, the submitted name is accepted exactly
when its trimmed length lies in [2, 255] and it contains no forbidden
path character; each violation yields its own distinct reply
(`nameTooShort`, `nameTooLong`, `nameForbiddenChars`), and an invalid
name leaves both the registry and the session untouched, so the
reviewer can retry without re-approving. -/
theorem claim4_name_validation (st : BotState) (admin_id : Nat)
    (text : String) (now : Int) (download : Except String Unit)
    (upload : String → Except String String) (ctx : AdminContext)
    (short_id : String) (pf : PendingFile)
    (hctx : alookup st.admin_context admin_id = some ctx)
    (hsid : ctx.last_approved_short_id = some short_id)
    (htime : timedOut ctx.waiting_since now = false)
    (hpf : alookup st.pending_callbacks short_id = some (.file pf))
    (hwait : pf.waiting_for_name = true) :
    (((handle_admin_message st admin_id text now download upload).2 = .nameTooShort
       ∨ (handle_admin_message st admin_id text now download upload).2 = .nameTooLong
       ∨ (handle_admin_message st admin_id text now download upload).2 = .nameForbiddenChars)
      ↔ nameValid (pyStrip text) = false)
    ∧ (nameValid (pyStrip text) = false →
        (handle_admin_message st admin_id text now download upload).1 = st)
    ∧ ((handle_admin_message st admin_id text now download upload).2 = .nameTooShort
        ↔ (pyStrip text).length < 2)
    ∧ ((handle_admin_message st admin_id text now download upload).2 = .nameTooLong
        ↔ (2 ≤ (pyStrip text).length ∧ 255 < (pyStrip text).length))
    ∧ ((handle_admin_message st admin_id text now download upload).2 = .nameForbiddenChars
        ↔ (2 ≤ (pyStrip text).length ∧ (pyStrip text).length ≤ 255
            ∧ (forbidden_chars.any fun c => pyIn c (pyStrip text)) = true)) := by
  rw [ham_reaches_validation st admin_id text now download upload ctx short_id pf
    hctx hsid htime hpf hwait]
  by_cases h1 : (pyStrip text).length < 2
  · have hnv : nameValid (pyStrip text) = false := by
      cases hb : nameValid (pyStrip text)
      · rfl
      · exact absurd ((nameValid_iff _).1 hb).1 (by omega)
    rw [if_pos h1]
    refine ⟨by simp [hnv], fun _ => rfl, by simp [h1], ?_, ?_⟩
    · constructor
      · intro h
        exact absurd h (by simp)
      · intro h
        omega
    · constructor
      · intro h
        exact absurd h (by simp)
      · intro h
        omega
  · by_cases h2 : 255 < (pyStrip text).length
    · have hnv : nameValid (pyStrip text) = false := by
        cases hb : nameValid (pyStrip text)
        · rfl
        · exact absurd ((nameValid_iff _).1 hb).2.1 (by omega)
      rw [if_neg h1, if_pos h2]
      refine ⟨by simp [hnv], fun _ => rfl, ?_, ?_, ?_⟩
      · constructor
        · intro h
          exact absurd h (by simp)
        · intro h
          exact absurd h h1
      · constructor
        · intro _
          exact ⟨by omega, h2⟩
        · intro _
          rfl
      · constructor
        · intro h
          exact absurd h (by simp)
        · intro h
          exact absurd h.2.1 (by omega)
    · by_cases h3 : (forbidden_chars.any fun c => pyIn c (pyStrip text)) = true
      · have hnv : nameValid (pyStrip text) = false := by
          cases hb : nameValid (pyStrip text)
          · rfl
          · have hcontra := ((nameValid_iff _).1 hb).2.2
            rw [hcontra] at h3
            exact absurd h3 (by simp)
        rw [if_neg h1, if_neg h2, if_pos h3]
        refine ⟨by simp [hnv], fun _ => rfl, ?_, ?_, ?_⟩
        · constructor
          · intro h
            exact absurd h (by simp)
          · intro h
            exact absurd h h1
        · constructor
          · intro h
            exact absurd h (by simp)
          · intro h
            exact absurd h.2 h2
        · constructor
          · intro _
            exact ⟨by omega, by omega, h3⟩
          · intro _
            rfl
      · have hnv : nameValid (pyStrip text) = true := by
          rw [nameValid_iff]
          exact ⟨by omega, by omega, by simpa using h3⟩
        rw [if_neg h1, if_neg h2, if_neg h3]
        have hval : ∀ r : BotState × MsgResult,
            (r.2 ≠ .nameTooShort ∧ r.2 ≠ .nameTooLong ∧ r.2 ≠ .nameForbiddenChars) →
            (((r.2 = .nameTooShort ∨ r.2 = .nameTooLong ∨ r.2 = .nameForbiddenChars)
               ↔ nameValid (pyStrip text) = false)
             ∧ (nameValid (pyStrip text) = false → r.1 = st)
             ∧ (r.2 = .nameTooShort ↔ (pyStrip text).length < 2)
             ∧ (r.2 = .nameTooLong
                 ↔ (2 ≤ (pyStrip text).length ∧ 255 < (pyStrip text).length))
             ∧ (r.2 = .nameForbiddenChars
                 ↔ (2 ≤ (pyStrip text).length ∧ (pyStrip text).length ≤ 255
                     ∧ (forbidden_chars.any fun c => pyIn c (pyStrip text)) = true))) := by
          intro r hr
          refine ⟨?_, ?_, ?_, ?_, ?_⟩
          · rw [hnv]
            constructor
            · rintro (h | h | h)
              · exact absurd h hr.1
              · exact absurd h hr.2.1
              · exact absurd h hr.2.2
            · intro h
              exact absurd h (by simp)
          · intro h
            rw [hnv] at h
            exact absurd h (by simp)
          · exact ⟨fun h => absurd h hr.1, fun h => absurd h h1⟩
          · exact ⟨fun h => absurd h hr.2.1, fun h => absurd h.2 h2⟩
          · refine ⟨fun h => absurd h hr.2.2, fun h => absurd h.2.2 h3⟩
        cases download with
        | error e => exact hval _ ⟨by simp, by simp, by simp⟩
        | ok u =>
          cases hu : upload (final_filename (pyStrip text) pf.original_filename) with
          | ok url => exact hval _ ⟨by simp, by simp, by simp⟩
          | error e => exact hval _ ⟨by simp, by simp, by simp⟩

/-- Witness for C4: the one-character name "a" is rejected as too short
at a concrete state. -/
theorem claim4_name_validation_witness :
    (handle_admin_message c2State 1 "a" 100 (.ok ()) (fun _ => .ok "U")).2
      = .nameTooShort :=
  ((claim4_name_validation c2State 1 "a" 100 (.ok ()) (fun _ => .ok "U")
      { last_approved_short_id := some "h1", waiting_since := some 50 }
      "h1" c2File (by decide) rfl (by decide) (by decide) rfl).2.2.1).2
    (by decide)

/-- C5: a valid submitted name without a dot gets the original
file's (lower-cased, last-dot) extension appended, a name containing a
dot is used verbatim, and the resulting final filename is what is handed
to the upload gateway and reported; in particular "summary" on an
original "doc.pdf" yields "summary.pdf" and "summary.txt" stays
"summary.txt". -/
theorem claim5_final_filename (st : BotState) (admin_id : Nat)
    (text : String) (now : Int) (download : Except String Unit)
    (upload : String → Except String String) (ctx : AdminContext)
    (short_id : String) (pf : PendingFile) (url : String)
    (hctx : alookup st.admin_context admin_id = some ctx)
    (hsid : ctx.last_approved_short_id = some short_id)
    (htime : timedOut ctx.waiting_since now = false)
    (hpf : alookup st.pending_callbacks short_id = some (.file pf))
    (hwait : pf.waiting_for_name = true)
    (hvalid : nameValid (pyStrip text) = true)
    (hdl : download = .ok ())
    (hup : upload (final_filename (pyStrip text) pf.original_filename) = .ok url) :
    (handle_admin_message st admin_id text now download upload).2
      = .uploadedOk (final_filename (pyStrip text) pf.original_filename) url
    ∧ (pyIn '.' (pyStrip text) = false →
        final_filename (pyStrip text) pf.original_filename
          = pyStrip text ++ "." ++ lowerAfterLastDot pf.original_filename)
    ∧ (pyIn '.' (pyStrip text) = true →
        final_filename (pyStrip text) pf.original_filename = pyStrip text)
    ∧ final_filename "summary" "doc.pdf" = "summary.pdf"
    ∧ final_filename "summary.txt" "doc.pdf" = "summary.txt" := by
  obtain ⟨ha, hb, hc⟩ := (nameValid_iff _).1 hvalid
  rw [ham_reaches_validation st admin_id text now download upload ctx short_id pf
    hctx hsid htime hpf hwait]
  rw [if_neg (by omega), if_neg (by omega), if_neg (by simp [hc])]
  subst hdl
  refine ⟨?_, ?_, ?_, by decide, by decide⟩
  · simp only [hup]
  · intro h
    simp [final_filename, h]
  · intro h
    simp [final_filename, h]

/-- Witness for C5: the full pipeline on the name "summary" with
original "doc.pdf" uploads "summary.pdf". -/
theorem claim5_final_filename_witness :
    (handle_admin_message c2State 1 "summary" 100 (.ok ())
        (fun _ => .ok "U")).2 = .uploadedOk "summary.pdf" "U" :=
  (claim5_final_filename c2State 1 "summary" 100 (.ok ()) (fun _ => .ok "U")
      { last_approved_short_id := some "h1", waiting_since := some 50 }
      "h1" c2File "U" (by decide) rfl (by decide) (by decide) rfl (by decide)
      rfl rfl).1

/-- C6: a name submission arriving more than 10 minutes (600 s)
after the session's `waiting_since` is rejected with the timeout reply,
the session entry is deleted (the registry is untouched), and any later
submission from the same reviewer is ignored until a fresh approve
recreates the context — the timeout is only ever checked on this lazy
path. -/
theorem claim6_session_timeout (st : BotState) (admin_id : Nat)
    (text : String) (now : Int) (download : Except String Unit)
    (upload : String → Except String String) (ctx : AdminContext)
    (short_id : String) (ws : Int)
    (hctx : alookup st.admin_context admin_id = some ctx)
    (hsid : ctx.last_approved_short_id = some short_id)
    (hws : ctx.waiting_since = some ws)
    (hlate : 600 < now - ws)
    (hnodup : (st.admin_context.map Prod.fst).Nodup) :
    (handle_admin_message st admin_id text now download upload).2 = .timeoutExpired
    ∧ (handle_admin_message st admin_id text now download upload).1.pending_callbacks
        = st.pending_callbacks
    ∧ alookup (handle_admin_message st admin_id text now download upload).1.admin_context
        admin_id = none
    ∧ (∀ (text2 : String) (now2 : Int) (dl2 : Except String Unit)
          (up2 : String → Except String String),
        handle_admin_message
            (handle_admin_message st admin_id text now download upload).1
            admin_id text2 now2 dl2 up2
          = ((handle_admin_message st admin_id text now download upload).1,
             .ignoredNoContext)) := by
  have htime : timedOut ctx.waiting_since now = true := by
    simp only [timedOut, hws, decide_eq_true_eq]
    omega
  have hred : handle_admin_message st admin_id text now download upload
      = ({ st with admin_context := aerase st.admin_context admin_id },
         .timeoutExpired) := by
    simp [handle_admin_message, hctx, hsid, htime]
  rw [hred]
  have hnone : alookup (aerase st.admin_context admin_id) admin_id = none :=
    alookup_aerase_self _ _ hnodup
  refine ⟨rfl, rfl, hnone, ?_⟩
  intro text2 now2 dl2 up2
  simp [handle_admin_message, hnone]

/-- Witness for C6 at a concrete timed-out state (950 s elapsed). -/
theorem claim6_session_timeout_witness :
    (handle_admin_message c2State 1 "name" 1000 (.ok ())
        (fun _ => .ok "U")).2 = .timeoutExpired :=
  (claim6_session_timeout c2State 1 "name" 1000 (.ok ()) (fun _ => .ok "U")
      { last_approved_short_id := some "h1", waiting_since := some 50 }
      "h1" 50 (by decide) rfl rfl (by decide) (by decide)).1

/-- C10: on the lazy timeout path only the reviewer's session entry
is deleted: the pending registry is left completely unchanged, the
handle the session pointed at still maps to the very same candidate
(still flagged `waiting_for_name`), and sessions of any other reviewer
are untouched. -/
theorem claim10_timeout_frame (st : BotState) (admin_id : Nat)
    (text : String) (now : Int) (download : Except String Unit)
    (upload : String → Except String String) (ctx : AdminContext)
    (short_id : String) (ws : Int) (pf : PendingFile)
    (hctx : alookup st.admin_context admin_id = some ctx)
    (hsid : ctx.last_approved_short_id = some short_id)
    (hws : ctx.waiting_since = some ws)
    (hlate : 600 < now - ws)
    (hpf : alookup st.pending_callbacks short_id = some (.file pf)) :
    (handle_admin_message st admin_id text now download upload).1.pending_callbacks
        = st.pending_callbacks
    ∧ alookup (handle_admin_message st admin_id text now download upload).1.pending_callbacks
        short_id = some (.file pf)
    ∧ (handle_admin_message st admin_id text now download upload).1.admin_context
        = aerase st.admin_context admin_id
    ∧ (∀ a : Nat, a ≠ admin_id →
        alookup (handle_admin_message st admin_id text now download upload).1.admin_context a
          = alookup st.admin_context a) := by
  have htime : timedOut ctx.waiting_since now = true := by
    simp only [timedOut, hws, decide_eq_true_eq]
    omega
  have hred : handle_admin_message st admin_id text now download upload
      = ({ st with admin_context := aerase st.admin_context admin_id },
         .timeoutExpired) := by
    simp [handle_admin_message, hctx, hsid, htime]
  rw [hred]
  exact ⟨rfl, hpf, rfl, fun a ha => alookup_aerase_ne _ _ _ ha⟩

/-- Witness for C10: after the timeout the registry still holds the
candidate under its handle. -/
theorem claim10_timeout_frame_witness :
    alookup (handle_admin_message c2State 1 "name" 1000 (.ok ())
        (fun _ => .ok "U")).1.pending_callbacks "h1" = some (.file c2File) :=
  (claim10_timeout_frame c2State 1 "name" 1000 (.ok ()) (fun _ => .ok "U")
      { last_approved_short_id := some "h1", waiting_since := some 50 }
      "h1" 50 c2File (by decide) rfl rfl (by decide) (by decide)).2.1

/-- C7: a document is admitted (a `MediaItem` is built and handed to
the approval request) exactly when its declared MIME type is in the
configured allow-list and its size is at most the configured maximum; a
photo is admitted exactly when the last (highest-resolution) variant's
size is at most the configured image maximum, with no MIME filter — the
admitted item always carries `image/jpeg`; every other post is dropped
(`none`), producing no reviewer-visible message. -/
theorem claim7_intake_filter :
    ∀ (cfg : AppConfig) (cap : Option String) (mid : Nat) (d : TgDocument)
      (photos : List TgPhotoSize),
    ((handle_document cfg cap mid d).isSome = true
       ↔ (d.mime_type ∈ cfg.ALLOWED_DOCUMENTS
           ∧ d.file_size ≤ cfg.MAX_FILE_SIZE_MB * 1024 * 1024))
    ∧ (∀ item, handle_document cfg cap mid d = some item →
        item = { telegram_file_id := d.file_id, media_type := .DOCUMENT,
                 filename := d.file_name, mime_type := d.mime_type,
                 size_bytes := d.file_size, caption := cap,
                 telegram_post_id := mid, status := .PENDING })
    ∧ (∀ p, photos.getLast? = some p →
        ((handle_photo cfg cap mid photos).isSome = true
          ↔ p.file_size ≤ cfg.MAX_IMAGE_SIZE_MB * 1024 * 1024))
    ∧ (∀ p, photos.getLast? = some p →
        p.file_size ≤ cfg.MAX_IMAGE_SIZE_MB * 1024 * 1024 →
        handle_photo cfg cap mid photos
          = some { telegram_file_id := p.file_id, media_type := .PHOTO,
                   filename := "photo_" ++ toString mid ++ ".jpg",
                   mime_type := "image/jpeg", size_bytes := p.file_size,
                   caption := cap, telegram_post_id := mid, status := .PENDING })
    ∧ handle_photo cfg cap mid [] = none := by
  intro cfg cap mid d photos
  refine ⟨⟨?_, ?_⟩, ?_, ?_, ?_, rfl⟩
  · intro h
    unfold handle_document at h
    by_cases hm : (cfg.ALLOWED_DOCUMENTS.contains d.mime_type) = false
    · rw [if_pos hm] at h
      exact absurd h (by simp)
    · have hb : cfg.ALLOWED_DOCUMENTS.contains d.mime_type = true := by
        revert hm
        cases cfg.ALLOWED_DOCUMENTS.contains d.mime_type <;> simp
      rw [if_neg hm] at h
      by_cases hs : cfg.MAX_FILE_SIZE_MB * 1024 * 1024 < d.file_size
      · rw [if_pos hs] at h
        exact absurd h (by simp)
      · exact ⟨List.elem_iff.mp hb, by omega⟩
  · rintro ⟨hmem, hsize⟩
    unfold handle_document
    have hb : cfg.ALLOWED_DOCUMENTS.contains d.mime_type = true :=
      List.elem_iff.mpr hmem
    rw [if_neg (by rw [hb]; simp), if_neg (by omega)]
    rfl
  · intro item hit
    unfold handle_document at hit
    by_cases hm : (cfg.ALLOWED_DOCUMENTS.contains d.mime_type) = false
    · rw [if_pos hm] at hit
      exact absurd hit (by simp)
    · rw [if_neg hm] at hit
      by_cases hs : cfg.MAX_FILE_SIZE_MB * 1024 * 1024 < d.file_size
      · rw [if_pos hs] at hit
        exact absurd hit (by simp)
      · rw [if_neg hs] at hit
        exact (Option.some.inj hit).symm
  · intro p hp
    unfold handle_photo
    simp only [hp]
    by_cases hs : cfg.MAX_IMAGE_SIZE_MB * 1024 * 1024 < p.file_size
    · rw [if_pos hs]
      simp only [Option.isSome_none]
      constructor
      · intro h
        exact absurd h (by simp)
      · intro h
        omega
    · rw [if_neg hs]
      simp only [Option.isSome_some]
      constructor
      · intro _
        omega
      · intro _
        trivial
  · intro p hp hsize
    unfold handle_photo
    simp only [hp]
    rw [if_neg (by omega)]

/-- Witness for C7: a 2 MB PDF passes the intake filter under the
concrete `app_config`. -/
theorem claim7_intake_filter_witness :
    (handle_document app_config none 77
        { file_id := "FID123", file_name := "doc.pdf",
          mime_type := "application/pdf", file_size := 2097152 }).isSome
      = true :=
  ((claim7_intake_filter app_config none 77
      { file_id := "FID123", file_name := "doc.pdf",
        mime_type := "application/pdf", file_size := 2097152 } []).1).2
    ⟨by decide, by decide⟩

/-- C8: when the download from the source or the upload to the
gateway fails on a valid name submission, the handler reports the
failure with the diagnostic truncated to 200 characters, clears only the
reviewer's session, and leaves the registry — including the candidate,
which keeps its awaiting-rename flag — exactly as it was; nothing is
retried. -/
theorem claim8_upstream_failure (st : BotState) (admin_id : Nat)
    (text : String) (now : Int) (download : Except String Unit)
    (upload : String → Except String String) (ctx : AdminContext)
    (short_id : String) (pf : PendingFile)
    (hctx : alookup st.admin_context admin_id = some ctx)
    (hsid : ctx.last_approved_short_id = some short_id)
    (htime : timedOut ctx.waiting_since now = false)
    (hpf : alookup st.pending_callbacks short_id = some (.file pf))
    (hwait : pf.waiting_for_name = true)
    (hvalid : nameValid (pyStrip text) = true) :
    (∀ e : String, download = .error e →
        handle_admin_message st admin_id text now download upload
          = ({ st with admin_context := aerase st.admin_context admin_id },
             .uploadFailed (pyTake e 200)))
    ∧ (∀ e : String, download = .ok () →
        upload (final_filename (pyStrip text) pf.original_filename) = .error e →
        handle_admin_message st admin_id text now download upload
          = ({ st with admin_context := aerase st.admin_context admin_id },
             .uploadFailed (pyTake e 200))) := by
  obtain ⟨ha, hb, hc⟩ := (nameValid_iff _).1 hvalid
  rw [ham_reaches_validation st admin_id text now download upload ctx short_id pf
    hctx hsid htime hpf hwait]
  rw [if_neg (by omega), if_neg (by omega), if_neg (by simp [hc])]
  constructor
  · intro e he
    subst he
    rfl
  · intro e hd hu
    subst hd
    simp only [hu]

/-- Witness for C8: a failing download ("boom") on the valid name
"summary" clears the session but not the registry. -/
theorem claim8_upstream_failure_witness :
    handle_admin_message c2State 1 "summary" 100 (.error "boom")
        (fun _ => .ok "U")
      = ({ c2State with admin_context := [] }, .uploadFailed "boom") :=
  (claim8_upstream_failure c2State 1 "summary" 100 (.error "boom")
      (fun _ => .ok "U")
      { last_approved_short_id := some "h1", waiting_since := some 50 }
      "h1" c2File (by decide) rfl (by decide) (by decide) rfl
      (by decide)).1 "boom" rfl

/-- C9: the stored repository path is always
`media_folder/YYYY-MM-DD/<32 lower-case hex digits>.<ext>`, where `ext`
is the substring after the last dot of the passed filename (`"bin"` when
it has no dot) — so the path never depends on the chosen base name — and
the returned location is the `raw.githubusercontent.com` URL of exactly
that path, while the passed filename appears only in the commit
message. -/
theorem claim9_github_upload_path (media_folder owner repo_name : String)
    (y m dy : Nat) (uuid_bytes : List Nat)
    (filename media_type_value : String)
    (hlen : uuid_bytes.length = 16) :
    (upload_file_to_github media_folder owner repo_name (strftime_date y m dy)
        uuid_bytes filename media_type_value).github_path
      = media_folder ++ "/" ++ strftime_date y m dy ++ "/"
          ++ (uuidHex uuid_bytes ++ "." ++ file_ext_for filename)
    ∧ (uuidHex uuid_bytes).length = 32
    ∧ (∀ c ∈ (uuidHex uuid_bytes).toList, isHexLowerDigit c = true)
    ∧ (upload_file_to_github media_folder owner repo_name (strftime_date y m dy)
          uuid_bytes filename media_type_value).public_url
      = "https://raw.githubusercontent.com/" ++ owner ++ "/" ++ repo_name
          ++ "/main/"
          ++ (upload_file_to_github media_folder owner repo_name
              (strftime_date y m dy) uuid_bytes filename
              media_type_value).github_path
    ∧ (pyIn '.' filename = false → file_ext_for filename = "bin")
    ∧ (∀ (base ext : String), pyIn '.' ext = false →
        file_ext_for (base ++ "." ++ ext) = ext)
    ∧ (∀ (base1 base2 ext : String), pyIn '.' ext = false →
        (upload_file_to_github media_folder owner repo_name
            (strftime_date y m dy) uuid_bytes (base1 ++ "." ++ ext)
            media_type_value).github_path
          = (upload_file_to_github media_folder owner repo_name
              (strftime_date y m dy) uuid_bytes (base2 ++ "." ++ ext)
              media_type_value).github_path)
    ∧ (upload_file_to_github media_folder owner repo_name (strftime_date y m dy)
          uuid_bytes filename media_type_value).commit_message
      = "📤 Upload: " ++ filename ++ " (" ++ media_type_value ++ ")" := by
  have hext : ∀ (base ext : String), pyIn '.' ext = false →
      file_ext_for (base ++ "." ++ ext) = ext := by
    intro base ext he
    have hnotin : '.' ∉ ext.toList := by
      intro hmem
      have hco : ext.toList.contains '.' = true := List.elem_iff.mpr hmem
      unfold pyIn at he
      rw [hco] at he
      exact absurd he (by simp)
    have hdot : pyIn '.' (base ++ "." ++ ext) = true := by
      have hmem : '.' ∈ (base ++ "." ++ ext).toList := by
        show '.' ∈ (base.toList ++ ['.']) ++ ext.toList
        simp
      exact List.elem_iff.mpr hmem
    unfold file_ext_for
    rw [if_pos hdot]
    show String.mk (afterLastDot ((base.toList ++ ['.']) ++ ext.toList)) = ext
    rw [List.append_assoc]
    show String.mk (afterLastDot (base.toList ++ '.' :: ext.toList)) = ext
    rw [afterLastDot_append _ _ hnotin]
    rfl
  refine ⟨rfl, ?_, uuidHex_all_hex uuid_bytes, rfl, ?_, hext, ?_, rfl⟩
  · rw [uuidHex_length, hlen]
  · intro h
    simp [file_ext_for, h]
  · intro base1 base2 ext he
    show media_folder ++ "/" ++ strftime_date y m dy ++ "/"
        ++ (uuidHex uuid_bytes ++ "." ++ file_ext_for (base1 ++ "." ++ ext))
      = media_folder ++ "/" ++ strftime_date y m dy ++ "/"
        ++ (uuidHex uuid_bytes ++ "." ++ file_ext_for (base2 ++ "." ++ ext))
    rw [hext base1 ext he, hext base2 ext he]

/-- Witness for C9: sixteen zero bytes render as 32 hex digits. -/
theorem claim9_github_upload_path_witness :
    (uuidHex (List.replicate 16 0)).length = 32 :=
  (claim9_github_upload_path "media" "owner" "repo" 2025 11 23
      (List.replicate 16 0) "doc.pdf" "DOCUMENT" (by decide)).2.1

end UnionBot
